import Mathlib

/-!
Verification of the wordtoppt document-to-deck pipeline.

This file gives a shallow embedding of the core of the `wordtoppt`
repository (src/wordtoppt/docx_parser.py, template_manager.py,
pptx_creator.py, utils.py) and proves/refutes the specified properties.

Conventions of the embedding:
* Python strings are Lean `String`s; the Python primitives used by the
  code (`str.strip`, `str.split`, `int(...)`, substring membership,
  truthiness) are modelled explicitly below, over the character list of
  the string.
* Fallible Python code (a raised exception) is modelled with `Option`
  or `Except String`.
* The stateful build performed by `PPTXCreator.create_presentation`
  is modelled by explicit state passing; the external python-pptx
  library is modelled at the interface the code uses (a slide created
  from a layout carries that layout's placeholder shapes; `save` is the
  only write of slide content to the output path).
-/

namespace WordToPPT

/-! ## Models of the Python string primitives -/

/-- Remove the maximal whitespace suffix of a character list. -/
def dropTrailingWs : List Char → List Char
  | [] => []
  | c :: cs =>
    match dropTrailingWs cs with
    | [] => if c.isWhitespace then [] else [c]
    | r => c :: r

/-- Model of Python `str.strip()` on a character list: remove leading and
trailing whitespace. -/
def stripChars (l : List Char) : List Char :=
  dropTrailingWs (l.dropWhile Char.isWhitespace)

/-- Model of Python `str.strip()`. -/
def pyStrip (s : String) : String :=
  String.mk (stripChars s.data)

/-- Split a character list at every character satisfying `p`, keeping
empty pieces. -/
def splitPred (p : Char → Bool) : List Char → List (List Char)
  | [] => [[]]
  | x :: xs =>
    if p x then
      [] :: splitPred p xs
    else
      match splitPred p xs with
      | s :: ss => (x :: s) :: ss
      | [] => [[x]]

/-- Model of Python `str.split(sep)` for a one-character separator, on a
character list: split at every occurrence of `c`, keeping empty pieces
(`"".split("\n") == [""]`, `"a\n\nb".split("\n") == ["a","","b"]`). -/
def splitChar (c : Char) (l : List Char) : List (List Char) :=
  splitPred (fun x => x = c) l

/-- Model of `sep.join(pieces)` for a one-character separator. -/
def joinChar (c : Char) : List (List Char) → List Char
  | [] => []
  | [m] => m
  | m :: ms => m ++ c :: joinChar c ms

/-- Model of Python `str.split()` (no argument): split on whitespace,
discarding empty pieces. -/
def pySplitWs (s : String) : List String :=
  ((splitPred Char.isWhitespace s.data).filter (fun m => m ≠ [])).map String.mk

/-- Model of Python `s.startswith(pre)`. -/
def pyStartsWith (s pre : String) : Bool :=
  pre.data.isPrefixOf s.data

/-- Value of a nonempty all-digit character list, `none` otherwise. -/
def parseDigits? (cs : List Char) : Option Nat :=
  if cs = [] ∨ ¬ cs.all Char.isDigit then none
  else some (cs.foldl (fun n c => 10 * n + (c.toNat - '0'.toNat)) 0)

/-- Model of Python `int(token)` for a whitespace-free token (the tokens
fed to it here come from `str.split()`, so they carry no whitespace):
an optional sign followed by decimal digits; anything else raises
`ValueError`, modelled as `none`. (Underscore digit grouping and
non-ASCII digits are not modelled; no claim depends on them.) -/
def pyInt? (s : String) : Option Int :=
  match s.data with
  | '-' :: cs => (parseDigits? cs).map (fun n => -(n : Int))
  | '+' :: cs => (parseDigits? cs).map (fun n => (n : Int))
  | cs => (parseDigits? cs).map (fun n => (n : Int))

/-- Whether `needle` occurs as a contiguous substring of `hay`
(model of Python `needle in hay` on character lists). -/
def infixOf (needle hay : List Char) : Bool :=
  match hay with
  | [] => needle = []
  | _ :: t => needle.isPrefixOf hay || infixOf needle t

/-- Model of Python `s.lower()` on a character list. -/
def lowerChars (l : List Char) : List Char :=
  l.map Char.toLower

/-- Model of Python `a.lower() in b.lower()`: case-insensitive substring
containment of `needle` in `hay`. -/
def containsCI (hay needle : String) : Bool :=
  infixOf (lowerChars needle.data) (lowerChars hay.data)

/-! ## DocxParser (src/wordtoppt/docx_parser.py) -/

/-- One paragraph of the input document, at the interface the parser
uses: its style name and its text. -/
structure Para where
  style : String
  text : String
deriving DecidableEq, Repr

/-- `paragraph.style.name.startswith("Heading")`. -/
def isHeading (p : Para) : Bool :=
  pyStartsWith p.style "Heading"

/-- Model of `int(paragraph.style.name.split()[-1])` (docx_parser.py
lines 80 and 131): take the trailing whitespace-separated token of the
style name and parse it as a Python int.  `none` models the raised
`ValueError` (unparsable token) or `IndexError` (no token). -/
def headingLevel? (style : String) : Option Int :=
  match (pySplitWs style).getLast? with
  | none => none
  | some tok => pyInt? tok

/-- A heading as extracted: `{"level": ..., "text": ...}`. -/
structure Heading where
  level : Int
  text : String
deriving DecidableEq, Repr

/-- A section as extracted: `{"heading": ..., "content": ...}`. -/
structure DocSection where
  heading : Heading
  content : List String
deriving DecidableEq, Repr

/-- Loop of `DocxParser._extract_headings`: every paragraph whose style
starts with `"Heading"` contributes a heading; an unparsable level
raises (the whole extraction fails, modelled as `none`). -/
def extractHeadingsAux : List Para → Option (List Heading)
  | [] => some []
  | p :: ps =>
    if isHeading p then
      match headingLevel? p.style with
      | none => none
      | some lvl => (extractHeadingsAux ps).map (fun hs => ⟨lvl, pyStrip p.text⟩ :: hs)
    else
      extractHeadingsAux ps

/-- `DocxParser._extract_headings` (docx_parser.py lines 71-88). -/
def extract_headings (paras : List Para) : Option (List Heading) :=
  extractHeadingsAux paras

/-- Loop of `DocxParser._extract_sections` (docx_parser.py lines
119-147).  State: the currently open section's heading (`cur`) and its
accumulated content (`cc`).  A heading paragraph closes the open
section and opens a new one (an unparsable level raises, losing the
whole result); a non-heading paragraph with nonempty stripped text is
appended to the open section, and is dropped when no section is open;
the final open section is flushed at end of input. -/
def extractSectionsAux : List Para → Option Heading → List String → Option (List DocSection)
  | [], none, _ => some []
  | [], some h, cc => some [⟨h, cc⟩]
  | p :: ps, cur, cc =>
    if isHeading p then
      match headingLevel? p.style with
      | none => none
      | some lvl =>
        match cur with
        | none => extractSectionsAux ps (some ⟨lvl, pyStrip p.text⟩) []
        | some h =>
          (extractSectionsAux ps (some ⟨lvl, pyStrip p.text⟩) []).map
            (fun ss => ⟨h, cc⟩ :: ss)
    else
      if pyStrip p.text ≠ "" ∧ cur.isSome then
        extractSectionsAux ps cur (cc ++ [pyStrip p.text])
      else
        extractSectionsAux ps cur cc

/-- `DocxParser._extract_sections` (docx_parser.py lines 107-149). -/
def extract_sections (paras : List Para) : Option (List DocSection) :=
  extractSectionsAux paras none []

/-! ## Specification-side segmentation (refinement target for C6)

`sectionsSpec` is written from the spec's words, to be compared with
`extract_sections`: one section per heading paragraph in source order,
each section's content being exactly the non-empty non-heading
paragraphs strictly between that heading and the next; zero headings
give the empty list; content before the first heading is dropped; a
heading whose level token fails to parse degrades to level 1 (the
spec's `ParseError` handling — never a document-fatal error). -/

/-- Spec wording: the content attached to a heading is the stripped text
of the non-empty non-heading paragraphs up to the next heading. -/
def sectionContentSpec (ps : List Para) : List String :=
  ((ps.takeWhile (fun q => ¬ isHeading q)).map (fun q => pyStrip q.text)).filter
    (fun t => t ≠ "")

/-- Spec wording for section extraction: every heading paragraph opens
one section, in source order (non-heading paragraphs never do — leading
content is dropped), with an unparsable heading level defaulting to 1
rather than failing. -/
def sectionsSpec : List Para → List DocSection
  | [] => []
  | p :: ps =>
    if isHeading p then
      ⟨⟨(headingLevel? p.style).getD 1, pyStrip p.text⟩, sectionContentSpec ps⟩ ::
        sectionsSpec ps
    else
      sectionsSpec ps

/-! ## TemplateManager (src/wordtoppt/template_manager.py) -/

/-- One placeholder shape descriptor, as collected by
`TemplateManager._analyze_placeholders`: `{"index", "type", "name"}`. -/
structure Placeholder where
  index : Nat
  type : Nat
  name : String
deriving DecidableEq, Repr

/-- One slide layout of the template, at the interface the code uses:
its name and its ordered placeholder shapes. -/
structure Layout where
  name : String
  placeholders : List Placeholder
deriving DecidableEq, Repr

/-- A resolved layout binding: `{"index", "name", "placeholders"}`. -/
structure Binding where
  index : Nat
  name : String
  placeholders : List Placeholder
deriving DecidableEq, Repr

/-- The `slide_layouts` dict built by `analyze_template`; the field
`sect` models the Python key `"section"` (a Lean keyword). -/
structure SlideLayouts where
  title : Option Binding
  sect : Option Binding
  content : Option Binding
  picture : Option Binding
  blank : Option Binding
deriving DecidableEq, Repr

/-- The five semantic slide roles (keys of `SLIDE_LAYOUT_TYPES`). -/
inductive Role
  | title
  | sect
  | content
  | picture
  | blank
deriving DecidableEq, Repr

/-- `TemplateManager.SLIDE_LAYOUT_TYPES`: the accepted layout-name
substrings of each role. -/
def SLIDE_LAYOUT_TYPES : Role → List String
  | .title => ["Title Slide", "Title"]
  | .sect => ["Section Header", "Section"]
  | .content => ["Title and Content", "Content", "Two Content", "Comparison"]
  | .picture => ["Picture with Caption", "Title and Picture"]
  | .blank => ["Blank"]

/-- Access the binding of a role in the `slide_layouts` dict. -/
def SlideLayouts.get (m : SlideLayouts) : Role → Option Binding
  | .title => m.title
  | .sect => m.sect
  | .content => m.content
  | .picture => m.picture
  | .blank => m.blank

/-- `any(name.lower() in layout_name.lower() for name in possible_names)`
(template_manager.py line 65). -/
def layoutMatches (r : Role) (l : Layout) : Bool :=
  (SLIDE_LAYOUT_TYPES r).any (fun n => containsCI l.name n)

/-- The binding recorded for a matching layout
(template_manager.py lines 69-73). -/
def mkBinding (idx : Nat) (l : Layout) : Binding :=
  ⟨idx, l.name, l.placeholders⟩

/-- Per-role update for one scanned layout: bind the role iff it matches
and the role is still unassigned (template_manager.py lines 63-73). -/
def assignRole (cur : Option Binding) (r : Role) (idx : Nat) (l : Layout) :
    Option Binding :=
  if cur.isNone ∧ layoutMatches r l then some (mkBinding idx l) else cur

/-- One iteration of the layout scan: try every role on this layout. -/
def scanStep (m : SlideLayouts) (p : Nat × Layout) : SlideLayouts :=
  { title := assignRole m.title .title p.1 p.2
    sect := assignRole m.sect .sect p.1 p.2
    content := assignRole m.content .content p.1 p.2
    picture := assignRole m.picture .picture p.1 p.2
    blank := assignRole m.blank .blank p.1 p.2 }

/-- The initial all-`None` `slide_layouts` dict. -/
def initLayouts : SlideLayouts :=
  ⟨none, none, none, none, none⟩

/-- The matching scan of `analyze_template`
(template_manager.py lines 59-73). -/
def scanLayouts (layouts : List Layout) : SlideLayouts :=
  layouts.enum.foldl scanStep initLayouts

/-- First fallback of `analyze_template` (template_manager.py lines
76-83): `title` unresolved and at least one layout — bind to layout
index 0. -/
def fallbackTitle (layouts : List Layout) (m : SlideLayouts) : SlideLayouts :=
  match m.title, layouts with
  | none, l :: _ => { m with title := some (mkBinding 0 l) }
  | _, _ => m

/-- Second fallback (template_manager.py lines 85-96): `content`
unresolved and more than one layout — bind to index
`1 if len > 1 else 0` (the guard makes that always 1, leaving the
`else 0` branch dead). -/
def fallbackContent (layouts : List Layout) (m : SlideLayouts) : SlideLayouts :=
  match m.content, layouts with
  | none, _ :: l1 :: _ =>
    { m with content := some (mkBinding (if layouts.length > 1 then 1 else 0) l1) }
  | _, _ => m

/-- Third fallback (template_manager.py lines 98-100): `sect`
unresolved — alias to the `title` binding. -/
def fallbackSection (m : SlideLayouts) : SlideLayouts :=
  if m.sect.isNone ∧ m.title.isSome then { m with sect := m.title } else m

/-- The fallback steps of `analyze_template`, in source order. -/
def applyFallbacks (layouts : List Layout) (m : SlideLayouts) : SlideLayouts :=
  fallbackSection (fallbackContent layouts (fallbackTitle layouts m))

/-- `TemplateManager.analyze_template` (template_manager.py lines
37-102), as a function of the template's layouts.  (Opening the file is
external; placeholder analysis is the identity on the descriptors the
interface exposes.) -/
def analyze_template (layouts : List Layout) : SlideLayouts :=
  applyFallbacks layouts (scanLayouts layouts)

/-! ## utils.format_slide_notes (src/wordtoppt/utils.py lines 64-81) -/

/-- `format_slide_notes`: return `""` on a falsy (empty) string,
otherwise split into lines, strip each line, drop empty lines and join
back with newlines. -/
def format_slide_notes (notes : String) : String :=
  if notes = "" then ""
  else
    String.mk
      (joinChar '\n'
        (((splitChar '\n' notes.data).map stripChars).filter (fun m => m ≠ [])))

/-! ## PPTXCreator (src/wordtoppt/pptx_creator.py) -/

/-- One entry of the generator's `slides` list, at the keys the creator
reads.  `none` models an absent key (`"k" in slide_data` false); the
typed values model the expected JSON types. -/
structure SlideData where
  slide_type : Option String
  title : Option String
  subtitle : Option String
  bullets : Option (List String)
  notes : Option String
deriving DecidableEq, Repr

/-- The generator's raw top-level value: a mapping (whose `"slides"` key
may be absent) or any non-mapping value, on which `.get` raises
`AttributeError`. -/
inductive RawStructure
  | mapping (slides : Option (List SlideData))
  | nonMapping
deriving DecidableEq, Repr

/-- The observable result of populating one slide.  `notesText = some t`
means the notes frame was created (accessing `slide.notes_slide`
creates it) and holds text `t`. -/
structure BuiltSlide where
  layoutIndex : Nat
  titleText : Option String
  subtitleText : Option String
  bodyTexts : Option (List String)
  notesText : Option String
deriving DecidableEq, Repr

/-- Placeholder scan shared by the three populate helpers: fold over the
slide's shapes keeping, for each of the two placeholder-type tests, the
last matching shape (`if/elif` chain inside a `for`, pptx_creator.py
lines 116-125, 148-155, 175-184).  `isSecond` selects the second test
(`== 2` on title slides, `in (2,3,7,8,18)` on content slides, never on
section slides). -/
def scanPlaceholders (isSecond : Nat → Bool) (shapes : List Placeholder) :
    Option Placeholder × Option Placeholder :=
  shapes.foldl
    (fun acc sh =>
      if sh.type = 1 then (some sh, acc.2)
      else if isSecond sh.type then (acc.1, some sh)
      else acc)
    (none, none)

/-- Python truthiness of an optional string value
(`"k" in d and d["k"]`). -/
def truthyStr (v : Option String) : Bool :=
  match v with
  | some s => s ≠ ""
  | none => false

/-- The notes write shared by the three populate helpers
(pptx_creator.py lines 136-139, 162-165, 207-210): when `notes` is
present and truthy, the notes frame is created and assigned the
formatted text; otherwise no notes frame is touched. -/
def notesWrite (v : Option String) : Option String :=
  match v with
  | some n => if n ≠ "" then some (format_slide_notes n) else none
  | none => none

/-- `PPTXCreator._create_title_slide` (pptx_creator.py lines 108-139):
the slide carries the chosen layout's placeholder shapes; type 1 is the
title target, type 2 the subtitle target; title is written when the key
is present, subtitle when present and truthy. -/
def createTitleSlide (layoutIndex : Nat) (shapes : List Placeholder)
    (d : SlideData) : BuiltSlide :=
  let scan := scanPlaceholders (fun t => t = 2) shapes
  { layoutIndex
    titleText := if scan.1.isSome ∧ d.title.isSome then d.title else none
    subtitleText := if scan.2.isSome ∧ truthyStr d.subtitle then d.subtitle else none
    bodyTexts := none
    notesText := notesWrite d.notes }

/-- `PPTXCreator._create_section_slide` (pptx_creator.py lines 141-165):
only the type-1 title placeholder is sought. -/
def createSectionSlide (layoutIndex : Nat) (shapes : List Placeholder)
    (d : SlideData) : BuiltSlide :=
  let scan := scanPlaceholders (fun _ => false) shapes
  { layoutIndex
    titleText := if scan.1.isSome ∧ d.title.isSome then d.title else none
    subtitleText := none
    bodyTexts := none
    notesText := notesWrite d.notes }

/-- `PPTXCreator._create_content_slide` (pptx_creator.py lines 167-210):
types {2,3,7,8,18} are content targets; when a content placeholder is
found and `bullets` is present and truthy, the placeholder text is
cleared and the bullets are written as its paragraphs, in order. -/
def createContentSlide (layoutIndex : Nat) (shapes : List Placeholder)
    (d : SlideData) : BuiltSlide :=
  let scan := scanPlaceholders (fun t => t = 2 ∨ t = 3 ∨ t = 7 ∨ t = 8 ∨ t = 18) shapes
  { layoutIndex
    titleText := if scan.1.isSome ∧ d.title.isSome then d.title else none
    subtitleText := none
    bodyTexts :=
      if scan.2.isSome ∧ d.bullets.isSome ∧ d.bullets ≠ some [] then d.bullets
      else none
    notesText := notesWrite d.notes }

/-- Layout selection of `create_presentation` (pptx_creator.py lines
64-87): `"title"` always takes layout index 0; `"section"` takes the
bound section layout, else index 0; everything else is a content slide
and takes the bound content layout, else index `1` (`0` on a
single-layout deck). -/
def selectLayoutIndex (slide_type : String) (lm : SlideLayouts)
    (numLayouts : Nat) : Nat :=
  if slide_type = "title" then 0
  else if slide_type = "section" then
    match lm.sect with
    | some b => b.index
    | none => 0
  else
    match lm.content with
    | some b => b.index
    | none => if numLayouts > 1 then 1 else 0

/-- `self.presentation.slide_layouts[i]`; `none` models the raised
`IndexError`. -/
def getLayout (layouts : List Layout) (i : Nat) : Except String Layout :=
  match layouts.get? i with
  | some l => Except.ok l
  | none => Except.error "IndexError"

/-- The per-slide body of the `create_presentation` loop
(pptx_creator.py lines 61-98): read `slide_type` (default
`"content"`), select and fetch the layout, add a slide on it (the new
slide carries the layout's placeholder shapes) and populate it with the
branch matching the slide type (anything not `"title"`/`"section"` is a
content slide). -/
def processSlide (layouts : List Layout) (lm : SlideLayouts) (d : SlideData) :
    Except String BuiltSlide :=
  let slide_type := d.slide_type.getD "content"
  let idx := selectLayoutIndex slide_type lm layouts.length
  (getLayout layouts idx).map (fun l =>
    if slide_type = "title" then createTitleSlide idx l.placeholders d
    else if slide_type = "section" then createSectionSlide idx l.placeholders d
    else createContentSlide idx l.placeholders d)

/-- The content-slide route of the loop: what every entry whose
`slide_type` is missing or neither `"title"` nor `"section"` goes
through. -/
def contentRoute (layouts : List Layout) (lm : SlideLayouts) (d : SlideData) :
    Except String BuiltSlide :=
  let idx := selectLayoutIndex "content" lm layouts.length
  (getLayout layouts idx).map (fun l => createContentSlide idx l.placeholders d)

/-- `PPTXCreator.create_presentation` (pptx_creator.py lines 33-106) as
the in-memory deck it builds: a non-mapping raw value raises
(`.get` fails with `AttributeError`, re-raised as `RuntimeError`); a
mapping's missing `"slides"` key defaults to the empty list; each entry
appends one populated slide, in order. -/
def create_presentation (layouts : List Layout) (lm : SlideLayouts)
    (raw : RawStructure) : Except String (List BuiltSlide) :=
  match raw with
  | .nonMapping => Except.error "AttributeError"
  | .mapping slides? => (slides?.getD []).mapM (processSlide layouts lm)

/-! ## File-state model of the run (for C4)

`create_presentation` performs exactly three kinds of interaction with
the output path, in this order (pptx_creator.py lines 43-101): the
template is copied to the output path first (`shutil.copy2`), all slide
population then mutates only the in-memory presentation object, and
`save` writes the populated deck at the very end.  `runCreate` makes
that ordering explicit, with an oracle choosing which external library
calls raise. -/

/-- What the caller can observe at the output path. -/
inductive FileState
  | absent
  | templateCopy
  | savedDeck (slides : List BuiltSlide)
deriving DecidableEq, Repr

/-- Which external library calls fail: reopening the copied template,
and the pptx mutation calls while populating slide `i`. -/
structure FailureOracle where
  openFails : Bool
  buildFails : Nat → Bool

/-- The population loop under the oracle: stop with an error if the
library raises on slide `i` or the slide itself cannot be built. -/
def buildLoop (layouts : List Layout) (lm : SlideLayouts) (o : FailureOracle) :
    Nat → List SlideData → Except String (List BuiltSlide)
  | _, [] => Except.ok []
  | i, d :: ds =>
    if o.buildFails i then Except.error "pptx raised"
    else
      match processSlide layouts lm d with
      | Except.error e => Except.error e
      | Except.ok s => (buildLoop layouts lm o (i + 1) ds).map (fun t => s :: t)

/-- The slides list the loop iterates over (empty when the raw value is
not a mapping — the run never reaches the loop). -/
def rawSlides : RawStructure → List SlideData
  | .mapping slides? => slides?.getD []
  | .nonMapping => []

/-- The part of the run after the template copy: read the raw value,
build every slide in memory (no write to the output path), and only a
fully successful loop reaches the save. -/
def runBody (layouts : List Layout) (lm : SlideLayouts) (raw : RawStructure)
    (o : FailureOracle) (fs0 : FileState) : Except String Unit × FileState :=
  match raw with
  | .nonMapping => (Except.error "AttributeError", fs0)
  | .mapping slides? =>
    match buildLoop layouts lm o 0 (slides?.getD []) with
    | Except.error e => (Except.error e, fs0)
    | Except.ok built => (Except.ok (), FileState.savedDeck built)

/-- `create_presentation` with its writes to the output path made
explicit: copy the template (when one is given), reopen it, build every
slide in memory, and only then save. -/
def runCreate (useTemplate : Bool) (layouts : List Layout) (lm : SlideLayouts)
    (raw : RawStructure) (o : FailureOracle) : Except String Unit × FileState :=
  let fs0 := if useTemplate then FileState.templateCopy else FileState.absent
  if useTemplate && o.openFails then (Except.error "open failed", fs0)
  else runBody layouts lm raw o fs0

/-! ## Theorems -/

/-- C1: on a template with exactly one layout whose name matches no
role's accepted substrings, `analyze_template` binds `title` (and,
through the alias, `section`) to layout index 0, but leaves `content`
unbound: the `len > 1` guard on the content fallback (template_manager.py
line 88) makes its own `else 0` branch (line 90) dead, contradicting the
comment "Content layout is essential - if not found, use second layout
or first non-title". -/
theorem c1_single_layout_content_unbound :
    analyze_template [⟨"Custom", []⟩] =
      { title := some ⟨0, "Custom", []⟩
        sect := some ⟨0, "Custom", []⟩
        content := none
        picture := none
        blank := none } := by
  decide

/-- C3 (amended): `create_presentation` does not validate the generator
output's shape: a mapping lacking a `slides` key proceeds with the empty
default (`.get("slides", [])`) and produces a deck with no added
slides, while a non-mapping value raises (`.get` fails with
`AttributeError`, re-raised as a `RuntimeError`); no `OutlineFormatError`
exists. -/
theorem c3_normalize_boundary (layouts : List Layout) (lm : SlideLayouts) :
    create_presentation layouts lm (RawStructure.mapping none) = Except.ok []
    ∧ create_presentation layouts lm RawStructure.nonMapping =
        Except.error "AttributeError" :=
  ⟨rfl, rfl⟩

/-- C3 counterexample: on a mapping without a `slides` key, the run does
not abort — normalization proceeds with the default empty list and the
(empty) deck is produced. -/
theorem c3_missing_slides_counterexample :
    create_presentation [⟨"Title Slide", []⟩, ⟨"Title and Content", []⟩]
      (analyze_template [⟨"Title Slide", []⟩, ⟨"Title and Content", []⟩])
      (RawStructure.mapping none) = Except.ok [] := rfl

/-- C5 (amended): the populator's layout selection ignores the map for
`title` slides (always layout index 0); a `section` slide uses the
map's section binding and falls back to layout index 0 (not to the
title binding) when it is absent; any other or missing slide type is
treated as `content` and uses the map's content binding, falling back
to index 1 (index 0 on a single-layout deck). -/
theorem c5_layout_selection (lm : SlideLayouts) (n : Nat) (t : String) (b : Binding) :
    selectLayoutIndex "title" lm n = 0
    ∧ (lm.sect = some b → selectLayoutIndex "section" lm n = b.index)
    ∧ (lm.sect = none → selectLayoutIndex "section" lm n = 0)
    ∧ (t ≠ "title" → t ≠ "section" → lm.content = some b →
        selectLayoutIndex t lm n = b.index)
    ∧ (t ≠ "title" → t ≠ "section" → lm.content = none →
        selectLayoutIndex t lm n = if n > 1 then 1 else 0) := by
  refine ⟨?_, ?_, ?_, ?_, ?_⟩ <;> intros <;> simp_all [selectLayoutIndex]

/-- C5 counterexample: on a template whose title layout sits at index 1,
the map binds `title` to index 1, yet a `title` slide is created on
layout index 0; and a `section` slide with no section binding is
created on layout index 0 even when the map's `title` binding has
index 2. -/
theorem c5_counterexample :
    (analyze_template [⟨"Two Content", []⟩, ⟨"Title Slide", []⟩]).title =
      some ⟨1, "Title Slide", []⟩
    ∧ (processSlide [⟨"Two Content", []⟩, ⟨"Title Slide", []⟩]
        (analyze_template [⟨"Two Content", []⟩, ⟨"Title Slide", []⟩])
        ⟨some "title", some "T", none, none, none⟩).map BuiltSlide.layoutIndex =
        Except.ok 0
    ∧ (processSlide [⟨"A", []⟩, ⟨"B", []⟩, ⟨"C", []⟩]
        ⟨some ⟨2, "C", []⟩, none, none, none, none⟩
        ⟨some "section", some "S", none, none, none⟩).map BuiltSlide.layoutIndex =
        Except.ok 0 := by
  refine ⟨by decide, rfl, rfl⟩

/-- C5 witness: a map binding `section` to index 1 and `content` to
index 0 drives the selection accordingly for a `section` slide and for
an unrecognized slide type. -/
theorem c5_layout_selection_witness :
    selectLayoutIndex "title" ⟨none, some ⟨1, "S", []⟩, some ⟨0, "C", []⟩, none, none⟩ 2 = 0
    ∧ selectLayoutIndex "section" ⟨none, some ⟨1, "S", []⟩, some ⟨0, "C", []⟩, none, none⟩ 2 = 1
    ∧ selectLayoutIndex "bogus" ⟨none, some ⟨1, "S", []⟩, some ⟨0, "C", []⟩, none, none⟩ 2 = 0 :=
  ⟨(c5_layout_selection ⟨none, some ⟨1, "S", []⟩, some ⟨0, "C", []⟩, none, none⟩ 2 "bogus"
      ⟨1, "S", []⟩).1,
   (c5_layout_selection ⟨none, some ⟨1, "S", []⟩, some ⟨0, "C", []⟩, none, none⟩ 2 "bogus"
      ⟨1, "S", []⟩).2.1 rfl,
   (c5_layout_selection ⟨none, some ⟨1, "S", []⟩, some ⟨0, "C", []⟩, none, none⟩ 2 "bogus"
      ⟨0, "C", []⟩).2.2.2.1 (by decide) (by decide) rfl⟩

/-- C9 (amended): when a slide's notes are present and truthy, the text
written into the notes frame is the input with each line stripped and
blank lines removed, joined with line breaks; however the notes frame's
creation is gated on the raw value's truthiness, not on the formatted
result (see the counterexample). -/
theorem c9_notes_formatting (idx : Nat) (shapes : List Placeholder)
    (d : SlideData) (n : String) (hn : d.notes = some n) (hne : n ≠ "") :
    (createContentSlide idx shapes d).notesText =
      some (String.mk (joinChar '\n'
        (((splitChar '\n' n.data).map stripChars).filter (fun m => m ≠ [])))) := by
  simp [createContentSlide, notesWrite, hn, hne, format_slide_notes]

/-- C9 witness at a concrete slide. -/
theorem c9_notes_formatting_witness :
    (createContentSlide 0 []
        ⟨some "content", none, none, none, some " A \n\nB "⟩).notesText =
      some (String.mk (joinChar '\n'
        (((splitChar '\n' (" A \n\nB " : String).data).map stripChars).filter
          (fun m => m ≠ [])))) :=
  c9_notes_formatting 0 [] ⟨some "content", none, none, none, some " A \n\nB "⟩
    " A \n\nB " rfl (by decide)

/-- C9 counterexample: whitespace-only notes are truthy, so the code
still creates the notes frame and assigns it the empty formatted text —
the claim says no notes frame is created when the formatted result is
empty. -/
theorem c9_empty_format_creates_frame :
    format_slide_notes " \n " = ""
    ∧ (createContentSlide 0 []
        ⟨some "content", none, none, none, some " \n "⟩).notesText = some "" := by
  exact ⟨by decide, by decide⟩

/-- Helper for C2: a heading-styled paragraph with an unparsable level
anywhere in the input makes the heading extraction raise. -/
lemma extractHeadingsAux_none {p : Para} :
    ∀ {paras : List Para}, p ∈ paras → isHeading p = true →
      headingLevel? p.style = none → extractHeadingsAux paras = none := by
  intro paras
  induction paras with
  | nil => intro h; cases h
  | cons q ps ih =>
    intro hmem hh hl
    rcases List.mem_cons.mp hmem with rfl | hmem
    · simp [extractHeadingsAux, hh, hl]
    · by_cases hq : isHeading q
      · simp only [extractHeadingsAux, hq, if_true]
        cases hq2 : headingLevel? q.style with
        | none => rfl
        | some lvl => rw [ih hmem hh hl]; rfl
      · simpa [extractHeadingsAux, hq] using ih hmem hh hl

/-- Helper for C2: the same failure propagates through the section
extraction loop from any loop state. -/
lemma extractSectionsAux_none {p : Para} :
    ∀ {paras : List Para} (cur : Option Heading) (cc : List String),
      p ∈ paras → isHeading p = true → headingLevel? p.style = none →
      extractSectionsAux paras cur cc = none := by
  intro paras
  induction paras with
  | nil => intro _ _ h; cases h
  | cons q ps ih =>
    intro cur cc hmem hh hl
    rcases List.mem_cons.mp hmem with rfl | hmem
    · cases cur <;> simp [extractSectionsAux, hh, hl]
    · by_cases hq : isHeading q
      · cases hq2 : headingLevel? q.style with
        | none => cases cur <;> simp [extractSectionsAux, hq, hq2]
        | some lvl =>
          cases cur with
          | none => simpa [extractSectionsAux, hq, hq2] using ih _ _ hmem hh hl
          | some h => simp [extractSectionsAux, hq, hq2, ih _ _ hmem hh hl]
      · by_cases hc : pyStrip q.text ≠ "" ∧ cur.isSome
        · simpa [extractSectionsAux, hq, hc] using ih _ _ hmem hh hl
        · simpa [extractSectionsAux, hq, hc] using ih _ _ hmem hh hl

/-- C2 (amended): a paragraph whose style name starts with `Heading` but
whose trailing token is not an integer does not degrade to level 1 — the
`int(...)` call raises `ValueError`, which is unhandled in
`_extract_headings` and `_extract_sections`, so the whole document's
extraction fails. -/
theorem c2_malformed_heading_fails_extraction (paras : List Para) (p : Para)
    (hmem : p ∈ paras) (hh : isHeading p = true)
    (hl : headingLevel? p.style = none) :
    extract_headings paras = none ∧ extract_sections paras = none :=
  ⟨extractHeadingsAux_none hmem hh hl, extractSectionsAux_none none [] hmem hh hl⟩

/-- C2 witness at a concrete document. -/
theorem c2_malformed_heading_fails_extraction_witness :
    extract_headings [⟨"Heading 1", "Intro"⟩, ⟨"Heading Foo", "Bad"⟩] = none
    ∧ extract_sections [⟨"Heading 1", "Intro"⟩, ⟨"Heading Foo", "Bad"⟩] = none :=
  c2_malformed_heading_fails_extraction _ ⟨"Heading Foo", "Bad"⟩
    (by decide) (by decide) (by decide)

/-- C2 counterexample: a single paragraph styled `"Heading X"` makes
both extractions fail instead of completing with a level-1 heading. -/
theorem c2_malformed_heading_counterexample :
    extract_headings [⟨"Heading X", "Intro"⟩] = none
    ∧ extract_sections [⟨"Heading X", "Intro"⟩] = none := by
  exact ⟨by decide, by decide⟩

/-- C8: an entry whose `slide_type` is missing or not `"title"` /
`"section"` takes the content route: it is populated as a content slide
on the content_layout selection, and whenever the selected index is in
range the processing succeeds (there is no rejection of unknown slide
types). -/
theorem c8_unknown_role_is_content (layouts : List Layout) (lm : SlideLayouts)
    (d : SlideData)
    (h : d.slide_type = none ∨
        ∃ t, d.slide_type = some t ∧ t ≠ "title" ∧ t ≠ "section") :
    processSlide layouts lm d = contentRoute layouts lm d
    ∧ (selectLayoutIndex "content" lm layouts.length < layouts.length →
        ∃ s, processSlide layouts lm d = Except.ok s) := by
  have hroute : processSlide layouts lm d = contentRoute layouts lm d := by
    rcases h with h | ⟨t, ht, ht1, ht2⟩
    · simp [processSlide, contentRoute, h]
    · have hsel : selectLayoutIndex t lm layouts.length =
          selectLayoutIndex "content" lm layouts.length := by
        simp [selectLayoutIndex, ht1, ht2]
      simp [processSlide, contentRoute, ht, ht1, ht2, hsel]
  refine ⟨hroute, fun hlt => ?_⟩
  rw [hroute]
  cases hg : layouts.get? (selectLayoutIndex "content" lm layouts.length) with
  | none =>
    exact absurd hlt (by simpa using Nat.not_lt.mpr (List.get?_eq_none.mp hg))
  | some l =>
    exact ⟨createContentSlide (selectLayoutIndex "content" lm layouts.length)
      l.placeholders d, by
        simp only [contentRoute, getLayout, ← List.get?_eq_getElem?, hg]
        rfl⟩

/-- C8 witness at a concrete entry with `slide_type = "weird"`. -/
theorem c8_unknown_role_is_content_witness :
    processSlide [⟨"Title Slide", []⟩, ⟨"Title and Content", [⟨1, 7, "Body"⟩]⟩]
        ⟨some ⟨0, "Title Slide", []⟩, none, some ⟨1, "Title and Content", [⟨1, 7, "Body"⟩]⟩,
          none, none⟩
        ⟨some "weird", some "T", none, some ["A", "B"], none⟩ =
      contentRoute [⟨"Title Slide", []⟩, ⟨"Title and Content", [⟨1, 7, "Body"⟩]⟩]
        ⟨some ⟨0, "Title Slide", []⟩, none, some ⟨1, "Title and Content", [⟨1, 7, "Body"⟩]⟩,
          none, none⟩
        ⟨some "weird", some "T", none, some ["A", "B"], none⟩ :=
  (c8_unknown_role_is_content _ _ _
    (Or.inr ⟨"weird", rfl, by decide, by decide⟩)).1

/-- Helper for C4: a successful population loop builds one slide per
entry. -/
lemma buildLoop_ok_length (layouts : List Layout) (lm : SlideLayouts)
    (o : FailureOracle) :
    ∀ (ds : List SlideData) (i : Nat) (built : List BuiltSlide),
      buildLoop layouts lm o i ds = Except.ok built → built.length = ds.length := by
  intro ds
  induction ds with
  | nil =>
    intro i built h
    simp only [buildLoop] at h
    cases h
    rfl
  | cons d ds ih =>
    intro i built h
    simp only [buildLoop] at h
    by_cases hf : o.buildFails i
    · simp [hf] at h
    · simp only [hf, if_false, Bool.false_eq_true] at h
      cases hp : processSlide layouts lm d with
      | error e => rw [hp] at h; cases h
      | ok s =>
        rw [hp] at h
        cases hb : buildLoop layouts lm o (i + 1) ds with
        | error e => rw [hb] at h; cases h
        | ok t =>
          rw [hb] at h
          cases h
          simp [ih (i + 1) t hb]

/-- C4: the only writes `create_presentation` makes at the output path
are the initial template copy and the final `save`; every failure
before the save (reopening the copy, an exception while populating any
slide) leaves the output path holding the unmodified template copy
(absent when no template was given) — never a partially populated
deck — and a saved deck exists only on a fully successful run and holds
one slide per outline entry. -/
theorem c4_no_partial_output (useTemplate : Bool) (layouts : List Layout)
    (lm : SlideLayouts) (raw : RawStructure) (o : FailureOracle) :
    (∀ e, (runCreate useTemplate layouts lm raw o).1 = Except.error e →
        (runCreate useTemplate layouts lm raw o).2 =
          (if useTemplate then FileState.templateCopy else FileState.absent))
    ∧ (∀ built, (runCreate useTemplate layouts lm raw o).2 = FileState.savedDeck built →
        (runCreate useTemplate layouts lm raw o).1 = Except.ok ()
        ∧ built.length = (rawSlides raw).length) := by
  have rest : ∀ fs0 : FileState, (∀ b, fs0 ≠ FileState.savedDeck b) →
      (∀ e, (runBody layouts lm raw o fs0).1 = Except.error e →
          (runBody layouts lm raw o fs0).2 = fs0)
      ∧ (∀ built,
          (runBody layouts lm raw o fs0).2 = FileState.savedDeck built →
          (runBody layouts lm raw o fs0).1 = Except.ok ()
            ∧ built.length = (rawSlides raw).length) := by
    intro fs0 hfs
    cases raw with
    | nonMapping =>
      constructor
      · intro e _; simp [runBody]
      · intro built h; simp [runBody] at h; exact absurd h (hfs built)
    | mapping slides? =>
      cases hb : buildLoop layouts lm o 0 (slides?.getD []) with
      | error e =>
        constructor
        · intro e' _; simp [runBody, hb]
        · intro built h; simp [runBody, hb] at h; exact absurd h (hfs built)
      | ok built =>
        constructor
        · intro e h; simp [runBody, hb] at h
        · intro b h
          simp only [runBody, hb, FileState.savedDeck.injEq] at h
          subst h
          exact ⟨by simp [runBody, hb], by
            simpa [rawSlides] using buildLoop_ok_length layouts lm o _ 0 _ hb⟩
  simp only [runCreate]
  cases useTemplate with
  | false => exact rest FileState.absent (fun b h => by cases h)
  | true =>
    cases hof : o.openFails with
    | false => exact rest FileState.templateCopy (fun b h => by cases h)
    | true => exact ⟨fun e _ => rfl, fun built h => by cases h⟩

/-- C4 witness: with one outline slide and the pptx library raising on
slide 0, the run fails and the output path holds the template copy. -/
theorem c4_no_partial_output_witness :
    (runCreate true [⟨"Title Slide", []⟩] initLayouts
        (RawStructure.mapping (some [⟨some "title", some "T", none, none, none⟩]))
        ⟨false, fun i => i = 0⟩).2 = FileState.templateCopy :=
  (c4_no_partial_output true [⟨"Title Slide", []⟩] initLayouts
      (RawStructure.mapping (some [⟨some "title", some "T", none, none, none⟩]))
      ⟨false, fun i => i = 0⟩).1 "pptx raised" rfl

/-- Helper for C7: the scan step updates each role's slot independently
through `assignRole`. -/
lemma get_scanStep (m : SlideLayouts) (p : Nat × Layout) (r : Role) :
    (scanStep m p).get r = assignRole (m.get r) r p.1 p.2 := by
  cases r <;> rfl

/-- Helper for C7: the layout scan binds each role to its first matching
enumerated layout (earlier bindings, fold-state included, are never
replaced). -/
lemma foldl_scanStep_get :
    ∀ (ps : List (Nat × Layout)) (m : SlideLayouts) (r : Role),
      (ps.foldl scanStep m).get r =
        match m.get r with
        | some b => some b
        | none =>
          (ps.find? (fun p => layoutMatches r p.2)).map (fun p => mkBinding p.1 p.2) := by
  intro ps
  induction ps with
  | nil => intro m r; cases hm : m.get r <;> simp [hm]
  | cons p ps ih =>
    intro m r
    rw [List.foldl_cons, ih (scanStep m p) r, get_scanStep]
    cases hm : m.get r with
    | some b => simp [assignRole, hm]
    | none =>
      by_cases hmt : layoutMatches r p.2
      · simp [assignRole, hm, hmt, List.find?_cons]
      · simp [assignRole, hm, hmt, List.find?_cons]

/-- Helper for C7: `initLayouts` holds no binding. -/
lemma initLayouts_get (r : Role) : initLayouts.get r = none := by
  cases r <;> rfl

/-- Helper for C7: the title fallback touches only the `title` field,
and keeps it when already bound. -/
lemma fallbackTitle_get (layouts : List Layout) (m : SlideLayouts) (r : Role)
    (b : Binding) (h : m.get r = some b) :
    (fallbackTitle layouts m).get r = some b := by
  cases r <;> simp only [SlideLayouts.get] at h ⊢ <;>
    unfold fallbackTitle <;> split <;> simp_all

/-- Helper for C7: the content fallback touches only the `content`
field, and keeps it when already bound. -/
lemma fallbackContent_get (layouts : List Layout) (m : SlideLayouts) (r : Role)
    (b : Binding) (h : m.get r = some b) :
    (fallbackContent layouts m).get r = some b := by
  cases r <;> simp only [SlideLayouts.get] at h ⊢ <;>
    unfold fallbackContent <;> split <;> simp_all

/-- Helper for C7: the section alias touches only the `sect` field, and
keeps it when already bound. -/
lemma fallbackSection_get (m : SlideLayouts) (r : Role) (b : Binding)
    (h : m.get r = some b) :
    (fallbackSection m).get r = some b := by
  cases r <;> simp only [SlideLayouts.get] at h ⊢ <;>
    unfold fallbackSection <;> split <;> simp_all

/-- Helper for C7: the fallback steps never replace a role that the
scan already bound. -/
lemma applyFallbacks_get_of_some (layouts : List Layout) (m : SlideLayouts)
    (r : Role) (b : Binding) (h : m.get r = some b) :
    (applyFallbacks layouts m).get r = some b :=
  fallbackSection_get _ r b
    (fallbackContent_get layouts _ r b (fallbackTitle_get layouts m r b h))

/-- C7: layout-to-role matching is first-match-wins: whenever some
layout matches a role's accepted name substrings, `analyze_template`
binds that role to the first (smallest-index) matching layout — later
matching layouts never replace the binding, and no fallback overrides
it. -/
theorem c7_first_match_wins (layouts : List Layout) (r : Role) (i : Nat)
    (l : Layout)
    (h : layouts.enum.find? (fun p => layoutMatches r p.2) = some (i, l)) :
    (analyze_template layouts).get r = some (mkBinding i l) := by
  have hscan : (scanLayouts layouts).get r = some (mkBinding i l) := by
    rw [scanLayouts, foldl_scanStep_get, initLayouts_get, h]
    rfl
  exact applyFallbacks_get_of_some layouts _ r _ hscan

/-- C7 witness: both layouts match role `content`; index 0 wins. -/
theorem c7_first_match_wins_witness :
    (analyze_template [⟨"Title and Content", []⟩, ⟨"Two Content", []⟩]).get
        Role.content = some (mkBinding 0 ⟨"Title and Content", []⟩) :=
  c7_first_match_wins [⟨"Title and Content", []⟩, ⟨"Two Content", []⟩]
    Role.content 0 ⟨"Title and Content", []⟩ (by decide)

/-- Unfolding: `sectionsSpec` on a heading paragraph. -/
lemma sectionsSpec_cons_heading (p : Para) (ps : List Para)
    (hp : isHeading p = true) :
    sectionsSpec (p :: ps) =
      ⟨⟨(headingLevel? p.style).getD 1, pyStrip p.text⟩, sectionContentSpec ps⟩ ::
        sectionsSpec ps := by
  simp [sectionsSpec, hp]

/-- Unfolding: `sectionsSpec` on a non-heading paragraph. -/
lemma sectionsSpec_cons_not_heading (p : Para) (ps : List Para)
    (hp : isHeading p = false) :
    sectionsSpec (p :: ps) = sectionsSpec ps := by
  simp [sectionsSpec, hp]

/-- Unfolding: the spec content of a heading-led tail is empty. -/
lemma sectionContentSpec_cons_heading (p : Para) (ps : List Para)
    (hp : isHeading p = true) : sectionContentSpec (p :: ps) = [] := by
  simp [sectionContentSpec, List.takeWhile_cons, hp]

/-- Unfolding: a non-heading paragraph with nonempty stripped text is
kept by the spec content. -/
lemma sectionContentSpec_cons_keep (p : Para) (ps : List Para)
    (hp : isHeading p = false) (ht : pyStrip p.text ≠ "") :
    sectionContentSpec (p :: ps) = pyStrip p.text :: sectionContentSpec ps := by
  simp [sectionContentSpec, List.takeWhile_cons, hp, ht]

/-- Unfolding: a non-heading paragraph with empty stripped text is
dropped by the spec content. -/
lemma sectionContentSpec_cons_drop (p : Para) (ps : List Para)
    (hp : isHeading p = false) (ht : pyStrip p.text = "") :
    sectionContentSpec (p :: ps) = sectionContentSpec ps := by
  simp [sectionContentSpec, List.takeWhile_cons, hp, ht]

/-- Helper for C6: when every heading level in the remaining paragraphs
parses, the section-extraction loop with an open section agrees with
the spec-side splitting of the remaining paragraphs. -/
lemma extractSectionsAux_some_eq :
    ∀ (ps : List Para) (h : Heading) (cc : List String),
      (∀ p ∈ ps, isHeading p = true → (headingLevel? p.style).isSome = true) →
      extractSectionsAux ps (some h) cc =
        some ((⟨h, cc ++ sectionContentSpec ps⟩ : DocSection) :: sectionsSpec ps) := by
  intro ps
  induction ps with
  | nil =>
    intro h cc _
    simp [extractSectionsAux, sectionsSpec, sectionContentSpec]
  | cons p ps ih =>
    intro h cc hlvl
    have hlvl' : ∀ q ∈ ps, isHeading q = true → (headingLevel? q.style).isSome = true :=
      fun q hq => hlvl q (List.mem_cons_of_mem p hq)
    cases hp : isHeading p with
    | false =>
      by_cases ht : pyStrip p.text = ""
      · rw [show extractSectionsAux (p :: ps) (some h) cc
            = extractSectionsAux ps (some h) cc by
          simp [extractSectionsAux, hp, ht]]
        rw [ih h cc hlvl']
        rw [sectionsSpec_cons_not_heading p ps hp,
          sectionContentSpec_cons_drop p ps hp ht]
      · rw [show extractSectionsAux (p :: ps) (some h) cc
            = extractSectionsAux ps (some h) (cc ++ [pyStrip p.text]) by
          simp [extractSectionsAux, hp, ht]]
        rw [ih h (cc ++ [pyStrip p.text]) hlvl']
        rw [sectionsSpec_cons_not_heading p ps hp,
          sectionContentSpec_cons_keep p ps hp ht]
        simp
    | true =>
      obtain ⟨lvl, hl⟩ := Option.isSome_iff_exists.mp
        (hlvl p (List.mem_cons_self p ps) hp)
      rw [show extractSectionsAux (p :: ps) (some h) cc
          = (extractSectionsAux ps (some ⟨lvl, pyStrip p.text⟩) []).map
              (fun ss => (⟨h, cc⟩ : DocSection) :: ss) by
        simp [extractSectionsAux, hp, hl]]
      rw [ih ⟨lvl, pyStrip p.text⟩ [] hlvl']
      rw [sectionsSpec_cons_heading p ps hp,
        sectionContentSpec_cons_heading p ps hp, hl]
      simp

/-- Helper for C6: with no heading present the spec yields no
sections. -/
lemma sectionsSpec_no_heading :
    ∀ (paras : List Para), (∀ p ∈ paras, isHeading p = false) →
      sectionsSpec paras = [] := by
  intro paras
  induction paras with
  | nil => intro _; rfl
  | cons p ps ih =>
    intro h
    rw [sectionsSpec_cons_not_heading p ps (h p (List.mem_cons_self p ps))]
    exact ih (fun q hq => h q (List.mem_cons_of_mem p hq))

/-- C6 (amended): on every document whose heading-styled paragraphs all
carry a parsable (integer) trailing level token, segmentation agrees
with the spec-side splitting: one section per heading paragraph, in
source order, each section's content being exactly the non-empty
non-heading paragraphs strictly between that heading and the next
(everything stripped); a document whose paragraphs contain no heading
yields the empty section list, content before the first heading being
dropped.  (On a document with an unparsable heading level the code
raises instead — see the counterexample and C2.) -/
theorem c6_segmentation (paras : List Para)
    (hlvl : ∀ p ∈ paras, isHeading p = true → (headingLevel? p.style).isSome = true) :
    extract_sections paras = some (sectionsSpec paras)
    ∧ (paras.filter isHeading = [] → extract_sections paras = some []) := by
  have main : ∀ qs : List Para,
      (∀ p ∈ qs, isHeading p = true → (headingLevel? p.style).isSome = true) →
      extract_sections qs = some (sectionsSpec qs) := by
    intro qs
    induction qs with
    | nil => intro _; rfl
    | cons p ps ih =>
      intro hq
      have hq' : ∀ r ∈ ps, isHeading r = true → (headingLevel? r.style).isSome = true :=
        fun r hr => hq r (List.mem_cons_of_mem p hr)
      cases hp : isHeading p with
      | false =>
        rw [show extract_sections (p :: ps) = extract_sections ps by
          simp [extract_sections, extractSectionsAux, hp]]
        rw [ih hq', sectionsSpec_cons_not_heading p ps hp]
      | true =>
        obtain ⟨lvl, hl⟩ := Option.isSome_iff_exists.mp
          (hq p (List.mem_cons_self p ps) hp)
        rw [show extract_sections (p :: ps)
            = extractSectionsAux ps (some ⟨lvl, pyStrip p.text⟩) [] by
          simp [extract_sections, extractSectionsAux, hp, hl]]
        rw [extractSectionsAux_some_eq ps ⟨lvl, pyStrip p.text⟩ [] hq']
        rw [sectionsSpec_cons_heading p ps hp, hl]
        simp
  refine ⟨main paras hlvl, fun hnone => ?_⟩
  rw [main paras hlvl]
  rw [sectionsSpec_no_heading paras
    (by simpa using List.filter_eq_nil_iff.mp hnone)]

/-- C6 witness: a well-formed two-heading document segments exactly as
the spec-side splitting prescribes. -/
theorem c6_segmentation_witness :
    extract_sections [⟨"Heading 1", "Intro"⟩, ⟨"Normal", " a "⟩,
        ⟨"Heading 2", "Bg"⟩, ⟨"Normal", "b"⟩]
      = some (sectionsSpec [⟨"Heading 1", "Intro"⟩, ⟨"Normal", " a "⟩,
        ⟨"Heading 2", "Bg"⟩, ⟨"Normal", "b"⟩]) :=
  (c6_segmentation [⟨"Heading 1", "Intro"⟩, ⟨"Normal", " a "⟩,
      ⟨"Heading 2", "Bg"⟩, ⟨"Normal", "b"⟩] (by decide)).1

/-- C6 counterexample: the claim fails on a document containing a
heading paragraph with an unparsable level token — the code yields no
sections at all (`none`), while the claimed behaviour (one section per
heading paragraph, with the following content) requires one section. -/
theorem c6_malformed_heading_counterexample :
    extract_sections [⟨"Heading X", "Intro"⟩, ⟨"Normal", "a"⟩] = none
    ∧ sectionsSpec [⟨"Heading X", "Intro"⟩, ⟨"Normal", "a"⟩]
        = [⟨⟨1, "Intro"⟩, ["a"]⟩] := by
  exact ⟨by decide, by decide⟩

/-! ### Helper lemmas for C10 (idempotence of `format_slide_notes`) -/

/-- `dropWhile` is idempotent. -/
lemma dropWhile_self (p : Char → Bool) :
    ∀ l : List Char, (l.dropWhile p).dropWhile p = l.dropWhile p := by
  intro l
  induction l with
  | nil => rfl
  | cons a l ih =>
    cases pa : p a with
    | true => simpa [List.dropWhile_cons, pa] using ih
    | false => simp [List.dropWhile_cons, pa]

/-- The head of a `dropWhile` result fails the predicate. -/
lemma head?_dropWhile_false (p : Char → Bool) :
    ∀ (l : List Char) (x : Char), (l.dropWhile p).head? = some x → p x = false := by
  intro l
  induction l with
  | nil => intro x h; cases h
  | cons a l ih =>
    intro x h
    cases pa : p a with
    | true => exact ih x (by simpa [List.dropWhile_cons, pa] using h)
    | false =>
      rw [List.dropWhile_cons_of_neg (by simp [pa])] at h
      cases h
      exact pa

/-- A list whose head fails the predicate is untouched by `dropWhile`. -/
lemma dropWhile_eq_self_of_head (p : Char → Bool) (l : List Char)
    (h : ∀ x, l.head? = some x → p x = false) : l.dropWhile p = l := by
  cases l with
  | nil => rfl
  | cons a l => exact List.dropWhile_cons_of_neg (by simp [h a rfl])

/-- A nonempty `dropTrailingWs` result keeps the head of its input. -/
lemma head?_dropTrailingWs :
    ∀ (l : List Char) (x : Char), (dropTrailingWs l).head? = some x →
      l.head? = some x := by
  intro l
  induction l with
  | nil => intro x h; cases h
  | cons c cs _ =>
    intro x h
    rw [dropTrailingWs] at h
    cases hr : dropTrailingWs cs with
    | nil =>
      rw [hr] at h
      by_cases hw : c.isWhitespace
      · simp [hw] at h
      · simp [hw] at h; simp [h]
    | cons d ds => rw [hr] at h; cases h; rfl

/-- The last element of a `dropTrailingWs` result is not whitespace. -/
lemma getLast?_dropTrailingWs_not_ws :
    ∀ (l : List Char) (x : Char), (dropTrailingWs l).getLast? = some x →
      x.isWhitespace = false := by
  intro l
  induction l with
  | nil => intro x h; cases h
  | cons c cs ih =>
    intro x h
    rw [dropTrailingWs] at h
    cases hr : dropTrailingWs cs with
    | nil =>
      rw [hr] at h
      by_cases hw : c.isWhitespace
      · simp [hw] at h
      · simp [hw] at h
        simpa [← h] using by simpa using hw
    | cons d ds =>
      rw [hr] at h
      rw [List.getLast?_cons_cons] at h
      exact ih x (hr ▸ h)

/-- A list whose last element is not whitespace is untouched by
`dropTrailingWs`. -/
lemma dropTrailingWs_eq_self :
    ∀ l : List Char, (∀ x, l.getLast? = some x → x.isWhitespace = false) →
      dropTrailingWs l = l := by
  intro l
  induction l with
  | nil => intro _; rfl
  | cons c cs ih =>
    intro h
    cases cs with
    | nil =>
      have := h c rfl
      simp [dropTrailingWs, this]
    | cons d ds =>
      have htail : dropTrailingWs (d :: ds) = d :: ds :=
        ih (fun x hx => h x (by rw [List.getLast?_cons_cons]; exact hx))
      rw [dropTrailingWs, htail]

/-- `dropTrailingWs` is idempotent. -/
lemma dropTrailingWs_self (l : List Char) :
    dropTrailingWs (dropTrailingWs l) = dropTrailingWs l :=
  dropTrailingWs_eq_self _ (getLast?_dropTrailingWs_not_ws l)

/-- `dropTrailingWs` only removes elements. -/
lemma mem_dropTrailingWs :
    ∀ (l : List Char) (x : Char), x ∈ dropTrailingWs l → x ∈ l := by
  intro l
  induction l with
  | nil => intro x h; cases h
  | cons c cs ih =>
    intro x h
    rw [dropTrailingWs] at h
    cases hr : dropTrailingWs cs with
    | nil =>
      rw [hr] at h
      by_cases hw : c.isWhitespace
      · simp [hw] at h
      · simp [hw] at h; simp [h]
    | cons d ds =>
      rw [hr] at h
      rcases List.mem_cons.mp h with rfl | h
      · exact List.mem_cons_self _ _
      · exact List.mem_cons_of_mem _ (ih x (hr ▸ h))

/-- The head of a stripped list is not whitespace. -/
lemma head?_stripChars_not_ws (l : List Char) (x : Char)
    (h : (stripChars l).head? = some x) : x.isWhitespace = false :=
  head?_dropWhile_false Char.isWhitespace l x (head?_dropTrailingWs _ x h)

/-- `stripChars` is idempotent. -/
lemma stripChars_self (l : List Char) : stripChars (stripChars l) = stripChars l := by
  unfold stripChars
  rw [dropWhile_eq_self_of_head Char.isWhitespace
    (dropTrailingWs (l.dropWhile Char.isWhitespace))
    (fun x hx => head?_stripChars_not_ws l x hx)]
  exact dropTrailingWs_self _

/-- `dropWhile` only removes elements. -/
lemma mem_dropWhile_imp (p : Char → Bool) :
    ∀ (l : List Char) (x : Char), x ∈ l.dropWhile p → x ∈ l := by
  intro l
  induction l with
  | nil => intro x h; simp at h
  | cons a l ih =>
    intro x h
    by_cases ha : p a
    · rw [List.dropWhile_cons_of_pos ha] at h
      exact List.mem_cons_of_mem _ (ih x h)
    · rwa [List.dropWhile_cons_of_neg ha] at h

/-- `stripChars` only removes elements. -/
lemma mem_stripChars (l : List Char) (x : Char) (h : x ∈ stripChars l) : x ∈ l :=
  mem_dropWhile_imp Char.isWhitespace l x (mem_dropTrailingWs _ x h)

/-- `splitPred` always returns at least one piece. -/
lemma splitPred_ne_nil (p : Char → Bool) : ∀ l : List Char, splitPred p l ≠ [] := by
  intro l
  cases l with
  | nil => simp [splitPred]
  | cons a l =>
    rw [splitPred]
    by_cases pa : p a
    · simp [pa]
    · simp only [pa, if_false, Bool.false_eq_true]
      cases splitPred p l <;> simp

/-- No element of a `splitPred` piece satisfies the separator
predicate. -/
lemma mem_splitPred_no_sep (p : Char → Bool) :
    ∀ (l : List Char) (m : List Char), m ∈ splitPred p l →
      ∀ x ∈ m, p x = false := by
  intro l
  induction l with
  | nil =>
    intro m hm x hx
    rw [splitPred] at hm
    rcases List.mem_singleton.mp hm with rfl
    cases hx
  | cons a l ih =>
    intro m hm x hx
    rw [splitPred] at hm
    by_cases pa : p a
    · rw [if_pos pa] at hm
      rcases List.mem_cons.mp hm with rfl | hm
      · cases hx
      · exact ih m hm x hx
    · rw [if_neg pa] at hm
      cases hs : splitPred p l with
      | nil => exact absurd hs (splitPred_ne_nil p l)
      | cons s ss =>
        rw [hs] at hm
        rcases List.mem_cons.mp hm with rfl | hm
        · rcases List.mem_cons.mp hx with rfl | hx
          · simpa using pa
          · exact ih s (hs ▸ List.mem_cons_self s ss) x hx
        · exact ih m (hs ▸ List.mem_cons_of_mem s hm) x hx

/-- A separator-free list is a single piece. -/
lemma splitPred_of_no_sep (p : Char → Bool) :
    ∀ m : List Char, (∀ x ∈ m, p x = false) → splitPred p m = [m] := by
  intro m
  induction m with
  | nil => intro _; rfl
  | cons a m ih =>
    intro h
    rw [splitPred, if_neg (by simp [h a (List.mem_cons_self a m)]),
      ih (fun x hx => h x (List.mem_cons_of_mem a hx))]

/-- Splitting after a separator-free prefix followed by a separator. -/
lemma splitPred_append_sep (p : Char → Bool) (c : Char) (hc : p c = true) :
    ∀ (m rest : List Char), (∀ x ∈ m, p x = false) →
      splitPred p (m ++ c :: rest) = m :: splitPred p rest := by
  intro m
  induction m with
  | nil => intro rest _; simp [splitPred, hc]
  | cons a m ih =>
    intro rest h
    rw [List.cons_append, splitPred,
      if_neg (by simp [h a (List.mem_cons_self a m)]),
      ih rest (fun x hx => h x (List.mem_cons_of_mem a hx))]

/-- Splitting is a left inverse of joining separator-free nonempty
pieces. -/
lemma splitPred_joinChar (p : Char → Bool) (c : Char) (hc : p c = true) :
    ∀ ms : List (List Char), ms ≠ [] → (∀ m ∈ ms, ∀ x ∈ m, p x = false) →
      splitPred p (joinChar c ms) = ms := by
  intro ms
  induction ms with
  | nil => intro h; exact absurd rfl h
  | cons m ms ih =>
    intro _ h
    cases ms with
    | nil =>
      rw [joinChar]
      exact splitPred_of_no_sep p m (h m (List.mem_cons_self m []))
    | cons m' ms' =>
      rw [joinChar, splitPred_append_sep p c hc _ _ (h m (List.mem_cons_self _ _)),
        ih (List.cons_ne_nil m' ms') (fun q hq => h q (List.mem_cons_of_mem m hq))]
      exact List.cons_ne_nil m' ms'

/-- Joining nonempty pieces yields a nonempty list. -/
lemma joinChar_ne_nil (c : Char) (ms : List (List Char)) (hms : ms ≠ [])
    (h : ∀ m ∈ ms, m ≠ []) : joinChar c ms ≠ [] := by
  cases ms with
  | nil => exact absurd rfl hms
  | cons m ms =>
    cases ms with
    | nil => simpa [joinChar] using h m (List.mem_cons_self m [])
    | cons m' ms' => simp [joinChar]

/-- Mapping `stripChars` over already-stripped pieces changes nothing. -/
lemma map_stripChars_eq_self :
    ∀ ms : List (List Char), (∀ m ∈ ms, stripChars m = m) →
      ms.map stripChars = ms := by
  intro ms
  induction ms with
  | nil => intro _; rfl
  | cons m ms ih =>
    intro h
    rw [List.map_cons, h m (List.mem_cons_self m ms),
      ih (fun q hq => h q (List.mem_cons_of_mem m hq))]

/-- Filtering out empty pieces from a list of nonempty pieces changes
nothing. -/
lemma filter_ne_nil_eq_self :
    ∀ ms : List (List Char), (∀ m ∈ ms, m ≠ []) →
      ms.filter (fun m => m ≠ []) = ms := by
  intro ms
  induction ms with
  | nil => intro _; rfl
  | cons m ms ih =>
    intro h
    rw [List.filter_cons, if_pos (by simpa using h m (List.mem_cons_self m ms)),
      ih (fun q hq => h q (List.mem_cons_of_mem m hq))]

/-- C10: `format_slide_notes` is idempotent. -/
theorem c10_format_slide_notes_idempotent (s : String) :
    format_slide_notes (format_slide_notes s) = format_slide_notes s := by
  by_cases hs : s = ""
  · rw [hs]; rfl
  · set p : Char → Bool := fun x => x = '\n' with hp
    set ms : List (List Char) :=
      ((splitPred p s.data).map stripChars).filter (fun m => m ≠ []) with hms
    have hmem : ∀ m ∈ ms, m ≠ [] ∧ stripChars m = m ∧ ∀ x ∈ m, p x = false := by
      intro m hm
      rw [hms] at hm
      obtain ⟨h2, h1⟩ := List.mem_filter.mp hm
      rcases List.mem_map.mp h2 with ⟨piece, hpiece, rfl⟩
      refine ⟨by simpa using h1, stripChars_self piece, fun x hx => ?_⟩
      exact mem_splitPred_no_sep p s.data piece hpiece x (mem_stripChars piece x hx)
    have hr : format_slide_notes s = String.mk (joinChar '\n' ms) := by
      rw [format_slide_notes, if_neg hs]
      rfl
    rw [hr]
    by_cases hempty : ms = []
    · rw [hempty]; rfl
    · have hjoin : joinChar '\n' ms ≠ [] :=
        joinChar_ne_nil '\n' ms hempty (fun m hm => (hmem m hm).1)
      have hstr : String.mk (joinChar '\n' ms) ≠ "" := by
        intro hcontra
        exact hjoin (by simpa using congrArg String.data hcontra)
      rw [format_slide_notes, if_neg hstr]
      rw [show splitChar '\n' (String.mk (joinChar '\n' ms)).data
          = splitPred p (joinChar '\n' ms) from rfl]
      rw [splitPred_joinChar p '\n' (by simp [hp]) ms hempty
        (fun m hm => (hmem m hm).2.2)]
      rw [map_stripChars_eq_self ms (fun m hm => (hmem m hm).2.1),
        filter_ne_nil_eq_self ms (fun m hm => (hmem m hm).1)]

end WordToPPT
